import Mathlib

/-!
Verification of the Tollbooth traffic-interception proxy addon
(`src/proxy/addon.py`) against its natural-language specification.

The Python addon is shallowly embedded: its mutable object state becomes an
explicit `AddonState` record, backend commands become a tagged union processed
by a pure transition function, and the async `request`/`response` hooks become
pure functions parameterised by the list of backend commands that the reader
loop processes while the hook is suspended on its 300-second wait.  Messages
sent to the backend over the WebSocket are collected into an output trace
(`List Msg`); the actual transport (which swallows send failures) is not
modelled beyond that.
-/

namespace Tollbooth

/-! ## Association-list model of Python `dict`

Python dict keys are unique; we model dicts as association lists mutated only
through `dictInsert` (replace-or-append, matching `d[k] = v`), `dictPop`
(matching `d.pop(k, None)`) and read through `dictLookup` / `dictMem`. -/

def dictLookup (m : List (String × α)) (k : String) : Option α :=
  match m with
  | [] => none
  | (k', v) :: rest => if k' == k then some v else dictLookup rest k

def dictMem (m : List (String × α)) (k : String) : Bool :=
  m.any (fun p => p.1 == k)

/-- Python `d[k] = v`: replace the value at an existing key in place, append
a new entry otherwise. -/
def dictInsert (m : List (String × α)) (k : String) (v : α) : List (String × α) :=
  match m with
  | [] => [(k, v)]
  | (k', v') :: rest =>
      if k' == k then (k, v) :: rest else (k', v') :: dictInsert rest k v

/-- Python `d.pop(k, None)`: remove the entry for `k`. -/
def dictPop (m : List (String × α)) (k : String) : List (String × α) :=
  match m with
  | [] => []
  | (k', v') :: rest =>
      if k' == k then dictPop rest k else (k', v') :: dictPop rest k

/-! ## Python substring containment (`needle in haystack` on `str`) -/

def leadsWith : List Char → List Char → Bool
  | [], _ => true
  | _ :: _, [] => false
  | a :: as, b :: bs => a == b && leadsWith as bs

def occursIn (needle : List Char) : List Char → Bool
  | [] => needle.isEmpty
  | c :: rest => leadsWith needle (c :: rest) || occursIn needle rest

/-- Python `needle in hay` for strings: substring containment. -/
def strIn (needle hay : String) : Bool :=
  occursIn needle.toList hay.toList

/-! ## Module-level constants (addon.py lines 22-31) -/

/-- Known LLM API endpoints for targeted interception (`LLM_API_HOSTS`). -/
def LLM_API_HOSTS : List String :=
  ["api.anthropic.com", "api.openai.com",
   "generativelanguage.googleapis.com", "chatgpt.com"]

/-- Default of `MAX_BODY_SIZE` (1 MiB).  The environment variable that can
override it is modelled by passing the bound as an explicit argument to
`get_body_content` and the functions built on it. -/
def MAX_BODY_SIZE_DEFAULT : Nat := 1 * 1024 * 1024

/-- Wait bound used for a paused phase and for replay-response intercepts:
`asyncio.wait_for(event.wait(), timeout=300)` (addon.py lines 313, 461, 545).
Real time is not modelled; the hooks below take the list of commands the
reader loop processes during the wait, and the timeout outcome is the event
remaining unset after all of them. -/
def INTERCEPT_TIMEOUT_SECONDS : Nat := 300

/-! ## Modification sets and backend commands -/

/-- A `modifications` dict attached by a backend command.  `drop` models
truthiness of `mods.get("drop")` (absent and falsy collapse to `false`);
the `Option` fields model presence of the `"body"` / `"headers"` /
`"status_code"` keys. -/
structure Mods where
  drop : Bool := false
  body : Option String := none
  headers : Option (List (String × String)) := none
  status_code : Option Int := none
deriving Repr, DecidableEq

/-- Inbound backend commands (`_process_backend_command`).  `data.get("mode")`
and `data.get("enabled")` defaults are modelled with `Option` payloads;
`replay_request` only spawns a task (modelled separately) and `unknown`
covers every unrecognised `cmd` tag. -/
inductive Command where
  | set_intercept_mode (mode : Option String)
  | set_rules_enabled (enabled : Option Bool)
  | forward (flow_id : String)
  | forward_modified (flow_id : String) (mods : Mods)
  | drop (flow_id : String)
  | forward_response (flow_id : String)
  | forward_response_modified (flow_id : String) (mods : Mods)
  | replay_request
  | unknown
deriving Repr, DecidableEq

/-- The addon's mutable state.  `pending_flows` / `response_pending` map a
flow id to the state of its `asyncio.Event` (`true` = set); the two
modification dicts are the one-shot stores. -/
structure AddonState where
  intercept_mode : String := "passthrough"
  rules_enabled : Bool := false
  pending_flows : List (String × Bool) := []
  flow_modifications : List (String × Mods) := []
  response_pending : List (String × Bool) := []
  response_modifications : List (String × Mods) := []
  streaming_flows : List String := []
deriving Repr, DecidableEq

/-- Set the event of a registered wait (`event.set()`). -/
def setEvent (m : List (String × Bool)) (k : String) : List (String × Bool) :=
  match m with
  | [] => []
  | (k', v') :: rest =>
      if k' == k then (k, true) :: setEvent rest k
      else (k', v') :: setEvent rest k

/-- Whether the event registered under `k` is set. -/
def eventSet (m : List (String × Bool)) (k : String) : Bool :=
  match dictLookup m k with
  | some b => b
  | none => false

/-- The dispatcher `_process_backend_command` (addon.py lines 107-165), as a pure state
transition.  `replay_request` spawns an async task and changes no addon
state at dispatch time; it is modelled by `handleReplayRequest` below. -/
def processCommand (st : AddonState) (c : Command) : AddonState :=
  match c with
  | .set_intercept_mode m => { st with intercept_mode := m.getD "passthrough" }
  | .set_rules_enabled e => { st with rules_enabled := e.getD false }
  | .forward fid =>
      if dictMem st.pending_flows fid then
        { st with pending_flows := setEvent st.pending_flows fid }
      else if dictMem st.response_pending fid then
        { st with response_pending := setEvent st.response_pending fid }
      else st
  | .forward_modified fid mods =>
      if dictMem st.pending_flows fid then
        { st with flow_modifications := dictInsert st.flow_modifications fid mods,
                  pending_flows := setEvent st.pending_flows fid }
      else if dictMem st.response_pending fid then
        { st with response_modifications := dictInsert st.response_modifications fid mods,
                  response_pending := setEvent st.response_pending fid }
      else st
  | .drop fid =>
      if dictMem st.pending_flows fid then
        { st with flow_modifications :=
                    dictInsert st.flow_modifications fid { drop := true },
                  pending_flows := setEvent st.pending_flows fid }
      else st
  | .forward_response fid =>
      if dictMem st.response_pending fid then
        { st with response_pending := setEvent st.response_pending fid }
      else st
  | .forward_response_modified fid mods =>
      if dictMem st.response_pending fid then
        { st with response_modifications := dictInsert st.response_modifications fid mods,
                  response_pending := setEvent st.response_pending fid }
      else st
  | .replay_request => st
  | .unknown => st

/-! ## Mode decisions (addon.py lines 348-368) -/

/-- Mode-based pause decision `should_intercept(host)`.  Its `result` starts
`False` and only the three recognised modes change it. -/
def should_intercept (st : AddonState) (host : String) : Bool :=
  if st.intercept_mode == "passthrough" then false
  else if st.intercept_mode == "intercept_llm" then
    LLM_API_HOSTS.any (fun h => strIn h host)
  else if st.intercept_mode == "intercept_all" then true
  else false

/-- The rules gate `should_apply_rules()`. -/
def should_apply_rules (st : AddonState) : Bool :=
  st.rules_enabled

/-- Known-endpoint flag `is_llm_api(host)`: `any(h in host for h in LLM_API_HOSTS)`. -/
def is_llm_api (host : String) : Bool :=
  LLM_API_HOSTS.any (fun h => strIn h host)

/-- The full pause decision used by both hooks:
`should_intercept(host) or should_apply_rules()`. -/
def pauseDecision (st : AddonState) (host : String) : Bool :=
  should_intercept st host || should_apply_rules st

/-! ## Bodies and `_get_body_content` (addon.py lines 370-389)

Bodies captured from the wire are byte strings (`List Nat`).  Python's
`bytes.decode("utf-8", errors="replace")` never raises; its exact multi-byte
behaviour is irrelevant to every claim, so it is modelled as a total
byte-to-char map (ASCII bytes kept, others replaced).  `set_text` encodes a
string back to bytes. -/

def decodeUtf8 (bs : List Nat) : String :=
  String.mk (bs.map (fun b => if b < 128 then Char.ofNat b else Char.ofNat 0xFFFD))

def encodeUtf8 (s : String) : List Nat :=
  s.toList.map Char.toNat

/-- Placeholder emitted for an oversized non-exempt body. -/
def truncatedPlaceholder (n : Nat) : String :=
  "[Content truncated, " ++ toString n ++ " bytes total]"

/-- Body capture `_get_body_content(content, is_llm)`.  Its `if not content` catches both
`None` and the empty byte string.  The `except` branches around `decode`
are unreachable with `errors="replace"` and so do not appear. -/
def get_body_content (maxBodySize : Nat) (content : Option (List Nat))
    (is_llm : Bool) : Option String :=
  match content with
  | none => none
  | some bs =>
      if bs.isEmpty then none
      else if is_llm then some (decodeUtf8 bs)
      else if bs.length > maxBodySize then some (truncatedPlaceholder bs.length)
      else some (decodeUtf8 bs)

/-! ## Flows and flow_to_dict (addon.py lines 391-421) -/

structure Request where
  method : String
  url : String
  host : String
  port : Nat
  path : String
  headers : List (String × String)
  content : Option (List Nat)
deriving Repr, DecidableEq

structure Response where
  status_code : Int
  reason : String
  headers : List (String × String)
  content : Option (List Nat)
deriving Repr, DecidableEq

structure Flow where
  id : String
  request : Request
  response : Option Response := none
deriving Repr, DecidableEq

/-- Serialised request half of `flow_to_dict` output. -/
structure RequestData where
  method : String
  url : String
  host : String
  port : Nat
  path : String
  headers : List (String × String)
  content : Option String
deriving Repr, DecidableEq

/-- Serialised response half of `flow_to_dict` output. -/
structure ResponseData where
  status_code : Int
  reason : String
  headers : List (String × String)
  content : Option String
deriving Repr, DecidableEq

/-- The dict built by `flow_to_dict` (and by the replay handler), with the
optional keys later attached by the hooks.  The wall-clock `timestamp`
field is omitted.  `replay_source` carries (variant id, parent flow id). -/
structure FlowData where
  flow_id : String
  request : RequestData
  is_llm_api : Bool
  response : Option ResponseData := none
  stream_complete : Bool := false
  original_response : Option ResponseData := none
  response_modified : Bool := false
  replay_source : Option (Option String × Option String) := none
deriving Repr, DecidableEq

/-- Serialisation `flow_to_dict(flow, include_response)`. -/
def flowToDict (maxBodySize : Nat) (flow : Flow) (include_response : Bool) :
    FlowData :=
  let is_llm := is_llm_api flow.request.host
  { flow_id := flow.id
    request :=
      { method := flow.request.method
        url := flow.request.url
        host := flow.request.host
        port := flow.request.port
        path := flow.request.path
        headers := flow.request.headers
        content := get_body_content maxBodySize flow.request.content is_llm }
    is_llm_api := is_llm
    response :=
      if include_response then
        flow.response.map (fun r =>
          { status_code := r.status_code
            reason := r.reason
            headers := r.headers
            content := get_body_content maxBodySize r.content is_llm })
      else none }

/-! ## Outbound messages -/

/-- Messages sent to the backend (`send_to_backend` payloads). -/
inductive Msg where
  | request (data : FlowData)
  | intercept_request (data : FlowData)
  | request_modified (flow_id : String) (original modified : RequestData)
  | intercept_response (data : FlowData)
  | response (data : FlowData)
  | replay_response (replay_id variant_id flow_id error : Option String)
  | replay_complete (replay_id variant_id : Option String) (flow_id : String)
      (success : Bool)
deriving Repr, DecidableEq

def Msg.isRequest : Msg → Bool
  | .request _ => true
  | _ => false

def Msg.isInterceptRequest : Msg → Bool
  | .intercept_request _ => true
  | _ => false

def Msg.isRequestModified : Msg → Bool
  | .request_modified _ _ _ => true
  | _ => false

def Msg.isInterceptResponse : Msg → Bool
  | .intercept_response _ => true
  | _ => false

def Msg.isResponse : Msg → Bool
  | .response _ => true
  | _ => false

def Msg.isReplayComplete : Msg → Bool
  | .replay_complete _ _ _ _ => true
  | _ => false

/-! ## Header mutation (`flow.request.headers[k] = v` in a loop) -/

/-- One `headers[k] = v` assignment: replace in place if the key exists,
append otherwise (Python dict assignment). -/
def setHeader (hs : List (String × String)) (k v : String) :
    List (String × String) :=
  dictInsert hs k v

/-- The loop `for k, v in mods["headers"].items(): headers[k] = v`. -/
def mergeHeaders (hs : List (String × String))
    (edits : List (String × String)) : List (String × String) :=
  edits.foldl (fun acc p => setHeader acc p.1 p.2) hs

/-! ## Applying modification sets inside the hooks -/

/-- Request-phase body/header application (addon.py lines 475-482; the
`drop` branch is handled by the caller).  Returns the mutated flow and the
`request_modified` flag. -/
def applyRequestMods (flow : Flow) (mods : Mods) : Flow × Bool :=
  let (f1, m1) :=
    match mods.body with
    | some b =>
        ({ flow with request := { flow.request with content := some (encodeUtf8 b) } },
         true)
    | none => (flow, false)
  match mods.headers with
  | some hs =>
      ({ f1 with request := { f1.request with headers := mergeHeaders f1.request.headers hs } },
       true)
  | none => (f1, m1)

/-- Response-phase application (addon.py lines 554-567): body replaces,
status_code replaces, headers merge.  Returns the mutated flow and the
`response_modified` flag. -/
def applyResponseMods (flow : Flow) (mods : Mods) : Flow × Bool :=
  match flow.response with
  | none => (flow, false)
  | some r =>
      let (r1, m1) :=
        match mods.body with
        | some b => ({ r with content := some (encodeUtf8 b) }, true)
        | none => (r, false)
      let (r2, m2) :=
        match mods.status_code with
        | some sc => ({ r1 with status_code := sc }, true)
        | none => (r1, m1)
      match mods.headers with
      | some hs =>
          ({ flow with response := some { r2 with headers := mergeHeaders r2.headers hs } },
           true)
      | none => ({ flow with response := some r2 }, m2)

/-! ## The request hook (addon.py lines 423-494)

The hook suspends on `asyncio.wait_for(event.wait(), timeout=300)`; while it
is suspended the background reader processes backend commands.  We
parameterise the hook by that command list `cs`.  The wait ends by release
when the flow's event is set after processing `cs`, and by the 300-second
timeout otherwise; both continuations are identical in the source (the
timeout is only logged), so the hook needs no outcome flag.  The result's
`Option Flow` is `none` when the flow was killed (`flow.kill()`), otherwise
the possibly mutated flow that is forwarded. -/

/-- Registration `self.pending_flows[flow_id] = event` with a fresh (unset)
event. -/
def registerRequestWait (st : AddonState) (fid : String) : AddonState :=
  { st with pending_flows := dictInsert st.pending_flows fid false }

/-- Registration `self.response_pending[flow_id] = event` with a fresh (unset)
event. -/
def registerResponseWait (st : AddonState) (fid : String) : AddonState :=
  { st with response_pending := dictInsert st.response_pending fid false }

def requestHook (maxBodySize : Nat) (st0 : AddonState) (flow : Flow)
    (cs : List Command) : AddonState × List Msg × Option Flow :=
  let flow_data := flowToDict maxBodySize flow false
  let original_request := flow_data.request
  let msgs0 := [Msg.request flow_data]
  if should_intercept st0 flow.request.host || should_apply_rules st0 then
    let fid := flow.id
    let st1 := registerRequestWait st0 fid
    let msgs1 := msgs0 ++ [Msg.intercept_request flow_data]
    let st2 := cs.foldl processCommand st1
    let st3 := { st2 with pending_flows := dictPop st2.pending_flows fid }
    match dictLookup st3.flow_modifications fid with
    | some mods =>
        let st4 := { st3 with flow_modifications := dictPop st3.flow_modifications fid }
        if mods.drop then
          (st4, msgs1, none)
        else
          let (flow', modified) := applyRequestMods flow mods
          if modified then
            let modified_flow_data := flowToDict maxBodySize flow' false
            (st4,
             msgs1 ++ [Msg.request_modified flow'.id original_request
                         modified_flow_data.request],
             some flow')
          else
            (st4, msgs1, some flow')
    | none => (st3, msgs1, some flow)
  else
    (st0, msgs0, some flow)

/-! ## The response hook (addon.py lines 507-586) -/

/-- The addon state after the streaming bookkeeping at the top of the
response hook (`self.streaming_flows.discard(flow.id)`). -/
def responsePreState (st0 : AddonState) (fid : String) : AddonState :=
  if st0.streaming_flows.contains fid then
    { st0 with streaming_flows := st0.streaming_flows.filter (fun x => x != fid) }
  else st0

def responseHook (maxBodySize : Nat) (st0 : AddonState) (flow : Flow)
    (cs : List Command) : AddonState × List Msg × Flow :=
  match flow.response with
  | none => (st0, [], flow)
  | some _ =>
    let flow_data0 := flowToDict maxBodySize flow true
    let original_response := flow_data0.response
    let isStreaming := st0.streaming_flows.contains flow.id
    let st0' := responsePreState st0 flow.id
    let flow_data :=
      if isStreaming then { flow_data0 with stream_complete := true } else flow_data0
    let (st5, msgsMid, flow', response_modified) :=
      if should_intercept st0' flow.request.host || should_apply_rules st0' then
        let fid := flow.id
        let st1 := registerResponseWait st0' fid
        let st2 := cs.foldl processCommand st1
        let st3 := { st2 with response_pending := dictPop st2.response_pending fid }
        match dictLookup st3.response_modifications fid with
        | some mods =>
            let st4 :=
              { st3 with response_modifications := dictPop st3.response_modifications fid }
            let (flow', modified) := applyResponseMods flow mods
            (st4, [Msg.intercept_response flow_data], flow', modified)
        | none => (st3, [Msg.intercept_response flow_data], flow, false)
      else (st0', [], flow, false)
    let final0 := flowToDict maxBodySize flow' true
    let final1 :=
      if st5.streaming_flows.contains flow.id || flow_data.stream_complete then
        { final0 with stream_complete := true }
      else final0
    let final2 :=
      if response_modified then
        { final1 with original_response := original_response, response_modified := true }
      else final1
    (st5, msgsMid ++ [Msg.response final2], flow')

/-! ## The replay handler (addon.py lines 176-346)

`_handle_replay_request` drives a synthetic flow.  Its two effectful
collaborators — `urlparse` (which the source wraps in a `try`) and the
outbound `httpx` call — are passed in as oracles returning `Except`, whose
`error` constructor models the exception branch.  The intercept wait is
parameterised by the command list `cs` exactly as in the hooks.  The
returned `Bool` records whether the HTTP client was invoked. -/

structure ReplayData where
  replay_id : Option String := none
  variant_id : Option String := none
  request_method : Option String := none
  request_url : Option String := none
  request_headers : List (String × String) := []
  request_body : Option String := none
  intercept_response : Bool := false
  parent_flow_id : Option String := none
deriving Repr, DecidableEq

structure ParsedUrl where
  hostname : Option String := none
  port : Option Nat := none
  path : String := ""
  query : Option String := none
  scheme : String := ""
deriving Repr, DecidableEq

structure HttpResp where
  status_code : Int
  reason_phrase : String
  headers : List (String × String)
  text : String
deriving Repr, DecidableEq

def handleReplayRequest (st0 : AddonState) (data : ReplayData)
    (parseUrl : String → Except String ParsedUrl)
    (httpClient : String → String → List (String × String) → Option String →
      Except String HttpResp)
    (cs : List Command) : AddonState × List Msg × Bool :=
  let method := data.request_method.getD "GET"
  let urlMissing :=
    match data.request_url with
    | none => true
    | some u => u == ""
  if urlMissing then
    (st0,
     [Msg.replay_response data.replay_id data.variant_id none (some "Missing URL")],
     false)
  else
    let url := data.request_url.getD ""
    let flow_id := "replay_" ++ data.replay_id.getD "None"
    match parseUrl url with
    | .error e =>
        (st0,
         [Msg.replay_response data.replay_id data.variant_id none
            (some ("Invalid URL: " ++ e))],
         false)
    | .ok parsed =>
        let host := parsed.hostname.getD ""
        let port :=
          match parsed.port with
          | some p =>
              if p == 0 then (if parsed.scheme == "https" then 443 else 80) else p
          | none => if parsed.scheme == "https" then 443 else 80
        let path0 := if parsed.path == "" then "/" else parsed.path
        let path :=
          match parsed.query with
          | some q => if q == "" then path0 else path0 ++ "?" ++ q
          | none => path0
        let is_llm := is_llm_api host
        let request_info : FlowData :=
          { flow_id := flow_id
            request :=
              { method := method, url := url, host := host, port := port,
                path := path, headers := data.request_headers,
                content := data.request_body }
            is_llm_api := is_llm
            replay_source := some (data.variant_id, data.parent_flow_id) }
        let msgs0 := [Msg.request request_info]
        let sendBody :=
          match data.request_body with
          | some b => if b == "" then none else some b
          | none => none
        match httpClient method url data.request_headers sendBody with
        | .error e =>
            (st0,
             msgs0 ++ [Msg.replay_response data.replay_id data.variant_id
                         (some flow_id) (some e)],
             true)
        | .ok resp =>
            let response_info : FlowData :=
              { request_info with
                  response := some
                    { status_code := resp.status_code
                      reason := resp.reason_phrase
                      headers := resp.headers
                      content := some resp.text } }
            let (st5, msgsMid, response_info) :=
              if data.intercept_response then
                let st1 := registerResponseWait st0 flow_id
                let msgs1 := [Msg.intercept_response response_info]
                let st2 := cs.foldl processCommand st1
                let st3 :=
                  { st2 with response_pending := dictPop st2.response_pending flow_id }
                match dictLookup st3.response_modifications flow_id with
                | some mods =>
                    let st4 :=
                      { st3 with response_modifications :=
                          dictPop st3.response_modifications flow_id }
                    let ri1 :=
                      match mods.body, response_info.response with
                      | some b, some r =>
                          { response_info with
                              response := some { r with content := some b }
                              response_modified := true }
                      | _, _ => response_info
                    let ri2 :=
                      match mods.status_code, ri1.response with
                      | some sc, some r =>
                          { ri1 with
                              response := some { r with status_code := sc }
                              response_modified := true }
                      | _, _ => ri1
                    let ri3 :=
                      match mods.headers, ri2.response with
                      | some hs, some r =>
                          { ri2 with
                              response := some { r with headers := mergeHeaders r.headers hs }
                              response_modified := true }
                      | _, _ => ri2
                    (st4, msgs1, ri3)
                | none => (st3, msgs1, response_info)
              else (st0, [], response_info)
            (st5,
             msgs0 ++ msgsMid ++
               [Msg.response response_info,
                Msg.replay_complete data.replay_id data.variant_id flow_id true],
             true)

/-! ## Infrastructure lemmas about the dict model -/

theorem dictLookup_insert_ne {α : Type} (m : List (String × α)) (k k1 : String)
    (v1 : α) (h : k ≠ k1) :
    dictLookup (dictInsert m k1 v1) k = dictLookup m k := by
  induction m with
  | nil =>
      have : (k1 == k) = false := beq_eq_false_iff_ne.mpr (Ne.symm h)
      simp [dictInsert, dictLookup, this]
  | cons a rest ih =>
      obtain ⟨ka, va⟩ := a
      cases hk : ka == k1
      · simp [dictInsert, dictLookup, hk, ih]
      · have hka : ka = k1 := by simpa using hk
        have : (k1 == k) = false := beq_eq_false_iff_ne.mpr (Ne.symm h)
        simp [dictInsert, dictLookup, hk, this, hka]

theorem dictLookup_insert_self {α : Type} (m : List (String × α)) (k : String)
    (v : α) : dictLookup (dictInsert m k v) k = some v := by
  induction m with
  | nil => simp [dictInsert, dictLookup]
  | cons a rest ih =>
      obtain ⟨ka, va⟩ := a
      cases hk : ka == k
      · simp [dictInsert, dictLookup, hk, ih]
      · simp [dictInsert, dictLookup, hk]

theorem dictMem_iff_lookup {α : Type} (m : List (String × α)) (k : String) :
    dictMem m k = true ↔ ∃ v, dictLookup m k = some v := by
  induction m with
  | nil => simp [dictMem, dictLookup]
  | cons a rest ih =>
      obtain ⟨ka, va⟩ := a
      cases hk : ka == k
      · simp [dictMem, dictLookup, hk] at ih ⊢
        exact ih
      · simp [dictMem, dictLookup, hk]

theorem dictMem_insert_self {α : Type} (m : List (String × α)) (k : String)
    (v : α) : dictMem (dictInsert m k v) k = true := by
  rw [dictMem_iff_lookup]
  exact ⟨v, dictLookup_insert_self m k v⟩

theorem eventSet_setEvent_ne (m : List (String × Bool)) (k k1 : String)
    (h : k ≠ k1) : eventSet (setEvent m k1) k = eventSet m k := by
  unfold eventSet
  induction m with
  | nil => rfl
  | cons a rest ih =>
      obtain ⟨ka, va⟩ := a
      cases hk : ka == k1
      · simp only [setEvent, hk, Bool.false_eq_true, if_false, dictLookup]
        cases hkk : ka == k
        · simp only [Bool.false_eq_true, if_false]
          exact ih
        · simp
      · have hka : ka = k1 := by simpa using hk
        have hne : (k1 == k) = false := beq_eq_false_iff_ne.mpr (Ne.symm h)
        subst hka
        simp only [setEvent, hk, if_true, dictLookup, hne, Bool.false_eq_true,
          if_false]
        exact ih

theorem eventSet_setEvent_self (m : List (String × Bool)) (k : String)
    (h : dictMem m k = true) : eventSet (setEvent m k) k = true := by
  unfold eventSet
  induction m with
  | nil => simp [dictMem] at h
  | cons a rest ih =>
      obtain ⟨ka, va⟩ := a
      cases hk : ka == k
      · simp only [dictMem, List.any_cons, hk, Bool.false_or] at h
        simp only [setEvent, hk, Bool.false_eq_true, if_false, dictLookup]
        exact ih h
      · simp [setEvent, hk, dictLookup]

theorem dictMem_setEvent (m : List (String × Bool)) (k k1 : String) :
    dictMem (setEvent m k1) k = dictMem m k := by
  induction m with
  | nil => rfl
  | cons a rest ih =>
      obtain ⟨ka, va⟩ := a
      cases hk : ka == k1
      · simp only [setEvent, hk, Bool.false_eq_true, if_false, dictMem,
          List.any_cons]
        simp only [dictMem] at ih
        rw [ih]
      · have hka : ka = k1 := by simpa using hk
        subst hka
        simp only [setEvent, hk, if_true, dictMem, List.any_cons]
        simp only [dictMem] at ih
        rw [ih]

theorem dictPop_setEvent (m : List (String × Bool)) (k : String) :
    dictPop (setEvent m k) k = dictPop m k := by
  induction m with
  | nil => rfl
  | cons a rest ih =>
      obtain ⟨ka, va⟩ := a
      cases hk : ka == k
      · simp [dictPop, setEvent, hk, ih]
      · simp [dictPop, setEvent, hk, ih]

/-! ## Substring containment, characterised -/

theorem leadsWith_iff (n h : List Char) :
    leadsWith n h = true ↔ ∃ t, h = n ++ t := by
  induction n generalizing h with
  | nil => simp [leadsWith]
  | cons a as ih =>
      cases h with
      | nil =>
          simp only [leadsWith, List.cons_append]
          constructor
          · intro hc; cases hc
          · rintro ⟨t, ht⟩; cases ht
      | cons b bs =>
          simp only [leadsWith, Bool.and_eq_true, beq_iff_eq]
          rw [ih]
          constructor
          · rintro ⟨rfl, t, rfl⟩
            exact ⟨t, rfl⟩
          · rintro ⟨t, ht⟩
            rw [List.cons_append] at ht
            injection ht with h1 h2
            exact ⟨h1.symm, t, h2⟩

theorem occursIn_iff (n h : List Char) :
    occursIn n h = true ↔ ∃ s t, h = s ++ n ++ t := by
  induction h with
  | nil =>
      simp only [occursIn, List.isEmpty_iff]
      constructor
      · rintro rfl; exact ⟨[], [], rfl⟩
      · rintro ⟨s, t, ht⟩
        rcases List.append_eq_nil.mp (List.append_eq_nil.mp ht.symm).1 with ⟨_, h2⟩
        exact h2
  | cons c rest ih =>
      simp only [occursIn, Bool.or_eq_true, leadsWith_iff, ih]
      constructor
      · rintro (⟨t, ht⟩ | ⟨s, t, ht⟩)
        · exact ⟨[], t, by simp [ht]⟩
        · exact ⟨c :: s, t, by simp [ht]⟩
      · rintro ⟨s, t, ht⟩
        cases s with
        | nil =>
            left
            exact ⟨t, by simpa using ht⟩
        | cons x xs =>
            right
            rw [List.cons_append, List.cons_append] at ht
            injection ht with h1 h2
            exact ⟨xs, t, by simp [h2]⟩

theorem strIn_iff (needle hay : String) :
    strIn needle hay = true ↔ ∃ s t, hay.toList = s ++ needle.toList ++ t :=
  occursIn_iff needle.toList hay.toList

/-! ## Command-processing invariants

A backend command stores a request-phase Modification Set for a flow only
together with setting that flow's event; hence a wait that ends by timeout
(event still unset) finds no stored Modification Set.  Same for the
response phase. -/

theorem processCommand_pending_mem (st : AddonState) (c : Command) (k : String)
    (h : dictMem st.pending_flows k = true) :
    dictMem (processCommand st c).pending_flows k = true := by
  cases c <;> simp only [processCommand] <;>
    first
      | exact h
      | (split
         · simp only [dictMem_setEvent]; exact h
         · first
             | exact h
             | (split
                · exact h
                · exact h))

theorem processCommand_response_mem (st : AddonState) (c : Command) (k : String)
    (h : dictMem st.response_pending k = true) :
    dictMem (processCommand st c).response_pending k = true := by
  cases c <;> simp only [processCommand] <;>
    first
      | exact h
      | (split
         · first
             | exact h
             | (simp only [dictMem_setEvent]; exact h)
         · first
             | exact h
             | (split
                · simp only [dictMem_setEvent]; exact h
                · exact h))

theorem foldl_pending_mem (cs : List Command) (st : AddonState) (k : String)
    (h : dictMem st.pending_flows k = true) :
    dictMem (cs.foldl processCommand st).pending_flows k = true := by
  induction cs generalizing st with
  | nil => exact h
  | cons c rest ih =>
      simp only [List.foldl_cons]
      exact ih (processCommand st c) (processCommand_pending_mem st c k h)

theorem foldl_response_mem (cs : List Command) (st : AddonState) (k : String)
    (h : dictMem st.response_pending k = true) :
    dictMem (cs.foldl processCommand st).response_pending k = true := by
  induction cs generalizing st with
  | nil => exact h
  | cons c rest ih =>
      simp only [List.foldl_cons]
      exact ih (processCommand st c) (processCommand_response_mem st c k h)

theorem processCommand_timeout_inv (st : AddonState) (c : Command) (k : String)
    (hinv : eventSet st.pending_flows k = false →
      dictLookup st.flow_modifications k = none)
    (h : eventSet (processCommand st c).pending_flows k = false) :
    dictLookup (processCommand st c).flow_modifications k = none := by
  cases c with
  | set_intercept_mode m => exact hinv h
  | set_rules_enabled e => exact hinv h
  | replay_request => exact hinv h
  | unknown => exact hinv h
  | forward_response fid =>
      simp only [processCommand] at h ⊢
      by_cases hm : dictMem st.response_pending fid = true
      · simp [hm] at h ⊢
        exact hinv h
      · simp [hm] at h ⊢
        exact hinv h
  | forward_response_modified fid mods =>
      simp only [processCommand] at h ⊢
      by_cases hm : dictMem st.response_pending fid = true
      · simp [hm] at h ⊢
        exact hinv h
      · simp [hm] at h ⊢
        exact hinv h
  | forward fid =>
      simp only [processCommand] at h ⊢
      by_cases hm : dictMem st.pending_flows fid = true
      · simp [hm] at h ⊢
        by_cases hk : k = fid
        · subst hk
          rw [eventSet_setEvent_self st.pending_flows k hm] at h
          cases h
        · rw [eventSet_setEvent_ne st.pending_flows k fid hk] at h
          exact hinv h
      · simp [hm] at h ⊢
        by_cases hm2 : dictMem st.response_pending fid = true
        · simp [hm, hm2] at h ⊢
          exact hinv h
        · simp [hm, hm2] at h ⊢
          exact hinv h
  | forward_modified fid mods =>
      simp only [processCommand] at h ⊢
      by_cases hm : dictMem st.pending_flows fid = true
      · simp [hm] at h ⊢
        by_cases hk : k = fid
        · subst hk
          rw [eventSet_setEvent_self st.pending_flows k hm] at h
          cases h
        · rw [eventSet_setEvent_ne st.pending_flows k fid hk] at h
          rw [dictLookup_insert_ne st.flow_modifications k fid mods hk]
          exact hinv h
      · simp [hm] at h ⊢
        by_cases hm2 : dictMem st.response_pending fid = true
        · simp [hm, hm2] at h ⊢
          exact hinv h
        · simp [hm, hm2] at h ⊢
          exact hinv h
  | drop fid =>
      simp only [processCommand] at h ⊢
      by_cases hm : dictMem st.pending_flows fid = true
      · simp [hm] at h ⊢
        by_cases hk : k = fid
        · subst hk
          rw [eventSet_setEvent_self st.pending_flows k hm] at h
          cases h
        · rw [eventSet_setEvent_ne st.pending_flows k fid hk] at h
          rw [dictLookup_insert_ne st.flow_modifications k fid { drop := true } hk]
          exact hinv h
      · simp [hm] at h ⊢
        exact hinv h

theorem foldl_timeout_inv (cs : List Command) (st : AddonState) (k : String)
    (hinv : eventSet st.pending_flows k = false →
      dictLookup st.flow_modifications k = none)
    (h : eventSet (cs.foldl processCommand st).pending_flows k = false) :
    dictLookup (cs.foldl processCommand st).flow_modifications k = none := by
  induction cs generalizing st with
  | nil => exact hinv h
  | cons c rest ih =>
      simp only [List.foldl_cons] at h ⊢
      exact ih (processCommand st c)
        (fun h' => processCommand_timeout_inv st c k hinv h') h

theorem processCommand_resp_timeout_inv (st : AddonState) (c : Command)
    (k : String)
    (hinv : eventSet st.response_pending k = false →
      dictLookup st.response_modifications k = none)
    (h : eventSet (processCommand st c).response_pending k = false) :
    dictLookup (processCommand st c).response_modifications k = none := by
  cases c with
  | set_intercept_mode m => exact hinv h
  | set_rules_enabled e => exact hinv h
  | replay_request => exact hinv h
  | unknown => exact hinv h
  | drop fid =>
      simp only [processCommand] at h ⊢
      by_cases hm : dictMem st.pending_flows fid = true
      · simp [hm] at h ⊢
        exact hinv h
      · simp [hm] at h ⊢
        exact hinv h
  | forward fid =>
      simp only [processCommand] at h ⊢
      by_cases hm : dictMem st.pending_flows fid = true
      · simp [hm] at h ⊢
        exact hinv h
      · simp [hm] at h ⊢
        by_cases hm2 : dictMem st.response_pending fid = true
        · simp [hm, hm2] at h ⊢
          by_cases hk : k = fid
          · subst hk
            rw [eventSet_setEvent_self st.response_pending k hm2] at h
            cases h
          · rw [eventSet_setEvent_ne st.response_pending k fid hk] at h
            exact hinv h
        · simp [hm, hm2] at h ⊢
          exact hinv h
  | forward_modified fid mods =>
      simp only [processCommand] at h ⊢
      by_cases hm : dictMem st.pending_flows fid = true
      · simp [hm] at h ⊢
        exact hinv h
      · simp [hm] at h ⊢
        by_cases hm2 : dictMem st.response_pending fid = true
        · simp [hm, hm2] at h ⊢
          by_cases hk : k = fid
          · subst hk
            rw [eventSet_setEvent_self st.response_pending k hm2] at h
            cases h
          · rw [eventSet_setEvent_ne st.response_pending k fid hk] at h
            rw [dictLookup_insert_ne st.response_modifications k fid mods hk]
            exact hinv h
        · simp [hm, hm2] at h ⊢
          exact hinv h
  | forward_response fid =>
      simp only [processCommand] at h ⊢
      by_cases hm : dictMem st.response_pending fid = true
      · simp [hm] at h ⊢
        by_cases hk : k = fid
        · subst hk
          rw [eventSet_setEvent_self st.response_pending k hm] at h
          cases h
        · rw [eventSet_setEvent_ne st.response_pending k fid hk] at h
          exact hinv h
      · simp [hm] at h ⊢
        exact hinv h
  | forward_response_modified fid mods =>
      simp only [processCommand] at h ⊢
      by_cases hm : dictMem st.response_pending fid = true
      · simp [hm] at h ⊢
        by_cases hk : k = fid
        · subst hk
          rw [eventSet_setEvent_self st.response_pending k hm] at h
          cases h
        · rw [eventSet_setEvent_ne st.response_pending k fid hk] at h
          rw [dictLookup_insert_ne st.response_modifications k fid mods hk]
          exact hinv h
      · simp [hm] at h ⊢
        exact hinv h

theorem foldl_resp_timeout_inv (cs : List Command) (st : AddonState)
    (k : String)
    (hinv : eventSet st.response_pending k = false →
      dictLookup st.response_modifications k = none)
    (h : eventSet (cs.foldl processCommand st).response_pending k = false) :
    dictLookup (cs.foldl processCommand st).response_modifications k = none := by
  induction cs generalizing st with
  | nil => exact hinv h
  | cons c rest ih =>
      simp only [List.foldl_cons] at h ⊢
      exact ih (processCommand st c)
        (fun h' => processCommand_resp_timeout_inv st c k hinv h') h

/-! ## Hook characterisations -/

theorem requestHook_no_mods (maxB : Nat) (st0 : AddonState) (flow : Flow)
    (cs : List Command)
    (hp : (should_intercept st0 flow.request.host || should_apply_rules st0) = true)
    (hnom : dictLookup
        (cs.foldl processCommand (registerRequestWait st0 flow.id)).flow_modifications
        flow.id = none) :
    requestHook maxB st0 flow cs =
      ({ cs.foldl processCommand (registerRequestWait st0 flow.id) with
          pending_flows :=
            dictPop (cs.foldl processCommand (registerRequestWait st0 flow.id)).pending_flows
              flow.id },
       [Msg.request (flowToDict maxB flow false),
        Msg.intercept_request (flowToDict maxB flow false)],
       some flow) := by
  unfold requestHook
  simp [hp, hnom]

theorem responsePreState_proj (st0 : AddonState) (fid : String) :
    (responsePreState st0 fid).intercept_mode = st0.intercept_mode ∧
    (responsePreState st0 fid).rules_enabled = st0.rules_enabled ∧
    (responsePreState st0 fid).response_pending = st0.response_pending ∧
    (responsePreState st0 fid).response_modifications = st0.response_modifications := by
  unfold responsePreState
  split <;> simp

theorem responseHook_no_mods (maxB : Nat) (st0 : AddonState) (flow : Flow)
    (cs : List Command) (r : Response)
    (hr : flow.response = some r)
    (hp : (should_intercept (responsePreState st0 flow.id) flow.request.host ||
           should_apply_rules (responsePreState st0 flow.id)) = true)
    (hnom : dictLookup
        ((cs.foldl processCommand
            (registerResponseWait (responsePreState st0 flow.id) flow.id)).response_modifications)
        flow.id = none) :
    responseHook maxB st0 flow cs =
      (let st2 := cs.foldl processCommand
          (registerResponseWait (responsePreState st0 flow.id) flow.id)
       let st3 : AddonState :=
         { st2 with response_pending := dictPop st2.response_pending flow.id }
       let fd0 := flowToDict maxB flow true
       let fd := if st0.streaming_flows.contains flow.id then
           { fd0 with stream_complete := true } else fd0
       let fin := if st3.streaming_flows.contains flow.id || fd.stream_complete then
           { fd0 with stream_complete := true } else fd0
       (st3, [Msg.intercept_response fd, Msg.response fin], flow)) := by
  unfold responseHook
  rw [hr]
  simp [hp, hnom]

theorem requestHook_timeout_aux (maxB : Nat) (st0 : AddonState) (flow : Flow)
    (cs : List Command)
    (hp : (should_intercept st0 flow.request.host || should_apply_rules st0) = true)
    (hmods : dictLookup st0.flow_modifications flow.id = none)
    (htimeout : eventSet
        (cs.foldl processCommand (registerRequestWait st0 flow.id)).pending_flows
        flow.id = false) :
    (requestHook maxB st0 flow cs).2.2 = some flow ∧
    (requestHook maxB st0 flow cs).2.1 =
      [Msg.request (flowToDict maxB flow false),
       Msg.intercept_request (flowToDict maxB flow false)] ∧
    requestHook maxB st0 flow cs =
      requestHook maxB st0 flow (cs ++ [Command.forward flow.id]) := by
  have hnom : dictLookup
      (cs.foldl processCommand (registerRequestWait st0 flow.id)).flow_modifications
      flow.id = none :=
    foldl_timeout_inv cs _ flow.id (fun _ => hmods) htimeout
  have hmem : dictMem
      (cs.foldl processCommand (registerRequestWait st0 flow.id)).pending_flows
      flow.id = true :=
    foldl_pending_mem cs _ flow.id (dictMem_insert_self st0.pending_flows flow.id false)
  have hfold2 : (cs ++ [Command.forward flow.id]).foldl processCommand
        (registerRequestWait st0 flow.id) =
      processCommand (cs.foldl processCommand (registerRequestWait st0 flow.id))
        (Command.forward flow.id) := by
    rw [List.foldl_append]
    rfl
  have hproc : processCommand
        (cs.foldl processCommand (registerRequestWait st0 flow.id))
        (Command.forward flow.id) =
      { cs.foldl processCommand (registerRequestWait st0 flow.id) with
          pending_flows :=
            setEvent (cs.foldl processCommand (registerRequestWait st0 flow.id)).pending_flows
              flow.id } := by
    simp [processCommand, hmem]
  have hnom2 : dictLookup
      ((cs ++ [Command.forward flow.id]).foldl processCommand
        (registerRequestWait st0 flow.id)).flow_modifications flow.id = none := by
    rw [hfold2, hproc]
    exact hnom
  have h1 := requestHook_no_mods maxB st0 flow cs hp hnom
  have h2 := requestHook_no_mods maxB st0 flow (cs ++ [Command.forward flow.id]) hp hnom2
  refine ⟨by rw [h1], by rw [h1], ?_⟩
  rw [h1, h2, hfold2, hproc]
  simp [dictPop_setEvent]

theorem responseHook_timeout_aux (maxB : Nat) (st0 : AddonState) (flow : Flow)
    (cs : List Command) (r : Response)
    (hr : flow.response = some r)
    (hp : (should_intercept st0 flow.request.host || should_apply_rules st0) = true)
    (hmods : dictLookup st0.response_modifications flow.id = none)
    (htimeout : eventSet
        (cs.foldl processCommand
          (registerResponseWait (responsePreState st0 flow.id) flow.id)).response_pending
        flow.id = false) :
    (responseHook maxB st0 flow cs).2.2 = flow ∧
    responseHook maxB st0 flow cs =
      responseHook maxB st0 flow (cs ++ [Command.forward_response flow.id]) := by
  have hpp : (should_intercept (responsePreState st0 flow.id) flow.request.host ||
      should_apply_rules (responsePreState st0 flow.id)) = true := by
    have h1 := (responsePreState_proj st0 flow.id).1
    have h2 := (responsePreState_proj st0 flow.id).2.1
    unfold should_intercept should_apply_rules at hp ⊢
    rw [h1, h2]
    exact hp
  have hinv0 : eventSet
        (registerResponseWait (responsePreState st0 flow.id) flow.id).response_pending
        flow.id = false →
      dictLookup
        (registerResponseWait (responsePreState st0 flow.id) flow.id).response_modifications
        flow.id = none := by
    intro _
    show dictLookup (responsePreState st0 flow.id).response_modifications flow.id = none
    rw [(responsePreState_proj st0 flow.id).2.2.2]
    exact hmods
  have hnom : dictLookup
      ((cs.foldl processCommand
        (registerResponseWait (responsePreState st0 flow.id) flow.id)).response_modifications)
      flow.id = none :=
    foldl_resp_timeout_inv cs _ flow.id hinv0 htimeout
  have hmem : dictMem
      ((cs.foldl processCommand
        (registerResponseWait (responsePreState st0 flow.id) flow.id)).response_pending)
      flow.id = true := by
    apply foldl_response_mem
    show dictMem (dictInsert (responsePreState st0 flow.id).response_pending flow.id false)
      flow.id = true
    exact dictMem_insert_self _ flow.id false
  have hfold2 : (cs ++ [Command.forward_response flow.id]).foldl processCommand
        (registerResponseWait (responsePreState st0 flow.id) flow.id) =
      processCommand
        (cs.foldl processCommand
          (registerResponseWait (responsePreState st0 flow.id) flow.id))
        (Command.forward_response flow.id) := by
    rw [List.foldl_append]
    rfl
  have hproc : processCommand
        (cs.foldl processCommand
          (registerResponseWait (responsePreState st0 flow.id) flow.id))
        (Command.forward_response flow.id) =
      { cs.foldl processCommand
          (registerResponseWait (responsePreState st0 flow.id) flow.id) with
          response_pending :=
            setEvent
              (cs.foldl processCommand
                (registerResponseWait (responsePreState st0 flow.id) flow.id)).response_pending
              flow.id } := by
    simp [processCommand, hmem]
  have hnom2 : dictLookup
      (((cs ++ [Command.forward_response flow.id]).foldl processCommand
        (registerResponseWait (responsePreState st0 flow.id) flow.id)).response_modifications)
      flow.id = none := by
    rw [hfold2, hproc]
    exact hnom
  have h1 := responseHook_no_mods maxB st0 flow cs r hr hpp hnom
  have h2 := responseHook_no_mods maxB st0 flow (cs ++ [Command.forward_response flow.id])
    r hr hpp hnom2
  refine ⟨by rw [h1], ?_⟩
  rw [h1, h2, hfold2, hproc]
  simp [dictPop_setEvent]

theorem requestHook_trace_facts (maxB : Nat) (st0 : AddonState) (flow : Flow)
    (cs : List Command) :
    (requestHook maxB st0 flow cs).2.1.countP Msg.isRequest = 1 ∧
    (requestHook maxB st0 flow cs).2.1.head? =
      some (Msg.request (flowToDict maxB flow false)) ∧
    (requestHook maxB st0 flow cs).2.1.countP Msg.isInterceptRequest ≤ 1 := by
  unfold requestHook
  by_cases hp : (should_intercept st0 flow.request.host || should_apply_rules st0) = true
  · simp only [hp, if_true]
    cases hlk : dictLookup
        (cs.foldl processCommand (registerRequestWait st0 flow.id)).flow_modifications
        flow.id with
    | none =>
        simp [hlk, List.countP_cons, Msg.isRequest, Msg.isInterceptRequest]
    | some mods =>
        by_cases hd : mods.drop = true
        · simp [hlk, hd, List.countP_cons, Msg.isRequest, Msg.isInterceptRequest]
        · rcases ham : applyRequestMods flow mods with ⟨f', m⟩
          cases m <;>
            simp [hlk, hd, ham, List.countP_cons, Msg.isRequest,
              Msg.isInterceptRequest, Msg.isRequestModified]
  · simp only [hp]
    simp [List.countP_cons, Msg.isRequest, Msg.isInterceptRequest,
      Bool.not_eq_true] at hp ⊢

theorem responseHook_trace_facts (maxB : Nat) (st0 : AddonState) (flow : Flow)
    (cs : List Command) (r : Response) (hr : flow.response = some r) :
    (responseHook maxB st0 flow cs).2.1.countP Msg.isResponse = 1 ∧
    ((responseHook maxB st0 flow cs).2.1.getLast?.map Msg.isResponse = some true) ∧
    (responseHook maxB st0 flow cs).2.1.countP Msg.isInterceptResponse ≤ 1 := by
  unfold responseHook
  rw [hr]
  by_cases hp : (should_intercept (responsePreState st0 flow.id) flow.request.host ||
      should_apply_rules (responsePreState st0 flow.id)) = true
  · simp only [hp, if_true]
    cases hlk : dictLookup
        ((cs.foldl processCommand
          (registerResponseWait (responsePreState st0 flow.id) flow.id)).response_modifications)
        flow.id with
    | none =>
        simp [hlk, List.countP_cons, Msg.isResponse, Msg.isInterceptResponse]
    | some mods =>
        rcases ham : applyResponseMods flow mods with ⟨f', m⟩
        simp [hlk, ham, List.countP_cons, Msg.isResponse, Msg.isInterceptResponse]
  · simp only [hp]
    simp [Bool.not_eq_true] at hp
    simp [hp, List.countP_cons, Msg.isResponse, Msg.isInterceptResponse]

/-! ## Header-merge lemma (keys not named in the edit are preserved) -/

theorem mergeHeaders_not_named (h0 : List (String × String))
    (edits : List (String × String)) (k : String)
    (hk : (edits.all fun p => !(p.1 == k)) = true) :
    dictLookup (mergeHeaders h0 edits) k = dictLookup h0 k := by
  induction edits generalizing h0 with
  | nil => rfl
  | cons e rest ih =>
      obtain ⟨ek, ev⟩ := e
      simp only [List.all_cons, Bool.and_eq_true] at hk
      have hne : k ≠ ek := by
        intro he
        subst he
        simp at hk
      simp only [mergeHeaders, List.foldl_cons]
      have := ih (setHeader h0 ek ev) hk.2
      simp only [mergeHeaders] at this
      rw [this]
      exact dictLookup_insert_ne h0 k ek ev hne

/-! ## Registry key multiplicity -/

def countKey (m : List (String × α)) (k : String) : Nat :=
  m.countP (fun p => p.1 == k)

theorem countKey_insert_ne {α : Type} (m : List (String × α))
    (k1 k2 : String) (v1 : α) (h : k2 ≠ k1) :
    countKey (dictInsert m k1 v1) k2 = countKey m k2 := by
  induction m with
  | nil =>
      have : (k1 == k2) = false := beq_eq_false_iff_ne.mpr (Ne.symm h)
      simp [dictInsert, countKey, List.countP_cons, this]
  | cons a rest ih =>
      obtain ⟨ka, va⟩ := a
      cases hk : ka == k1
      · simp only [dictInsert, hk, Bool.false_eq_true, if_false]
        simp only [countKey, List.countP_cons] at ih ⊢
        rw [ih]
      · have hka : ka = k1 := by simpa using hk
        have hne : (k1 == k2) = false := beq_eq_false_iff_ne.mpr (Ne.symm h)
        subst hka
        simp [dictInsert, hk, countKey, List.countP_cons, hne]

theorem countKey_insert_le {α : Type} (m : List (String × α)) (k : String)
    (v : α) (k2 : String) (h : countKey m k2 ≤ 1) :
    countKey (dictInsert m k v) k2 ≤ 1 := by
  by_cases hk : k2 = k
  · subst hk
    induction m with
    | nil => simp [dictInsert, countKey, List.countP_cons]
    | cons a rest ih =>
        obtain ⟨ka, va⟩ := a
        cases hkk : ka == k2
        · simp only [dictInsert, hkk, Bool.false_eq_true, if_false]
          simp only [countKey, List.countP_cons, hkk] at h ⊢
          simp only [Bool.false_eq_true, if_false] at h ⊢
          exact ih h
        · have hka : ka = k2 := by simpa using hkk
          subst hka
          simp only [dictInsert, hkk, if_true]
          simp only [countKey, List.countP_cons, hkk, if_true] at h ⊢
          simpa using h
  · rw [countKey_insert_ne m k k2 v hk]
    exact h

/-! ## Claim theorems -/

/-- C3: for every host, the pause decision equals
(mode == intercept-all) OR (mode == intercept-known AND the host matches the
known-endpoint set) OR (rules-toggle enabled), and it is monotonic in the
rules-toggle: with the rules-toggle enabled the transaction pauses for every
host and every mode. -/
theorem pause_decision_formula (st : AddonState) (host : String) :
    pauseDecision st host =
      ((st.intercept_mode == "intercept_all") ||
       ((st.intercept_mode == "intercept_llm") && is_llm_api host) ||
       st.rules_enabled) ∧
    (st.rules_enabled = true → pauseDecision st host = true) := by
  constructor
  · unfold pauseDecision should_intercept should_apply_rules is_llm_api
    by_cases h1 : st.intercept_mode = "passthrough"
    · simp [h1]
    · by_cases h2 : st.intercept_mode = "intercept_llm"
      · simp [h2]
      · by_cases h3 : st.intercept_mode = "intercept_all"
        · simp [h3]
        · simp [h1, h2, h3]
  · intro h
    unfold pauseDecision should_apply_rules
    simp [h]

/-- Witness for `pause_decision_formula` at a concrete state and host: the
rules-toggle alone forces pausing in passthrough mode. -/
theorem pause_decision_formula_witness :
    pauseDecision { intercept_mode := "passthrough", rules_enabled := true }
        "example.com" =
      (("passthrough" == "intercept_all") ||
       (("passthrough" == "intercept_llm") && is_llm_api "example.com") ||
       true) ∧
    pauseDecision { intercept_mode := "passthrough", rules_enabled := true }
        "example.com" = true :=
  ⟨(pause_decision_formula
      { intercept_mode := "passthrough", rules_enabled := true } "example.com").1,
   (pause_decision_formula
      { intercept_mode := "passthrough", rules_enabled := true } "example.com").2 rfl⟩

/-- C8: a captured body on a non-exempt (not known-endpoint) host whose
length exceeds the configured maximum body size is replaced by the
size-bounded placeholder (a function of the length alone); a body on a
known-endpoint host is forwarded in full (decoded wholesale) regardless of
its size. -/
theorem body_truncation (maxB : Nat) (host : String) (bs : List Nat) :
    (is_llm_api host = false → bs.length > maxB →
      get_body_content maxB (some bs) (is_llm_api host) =
        some (truncatedPlaceholder bs.length)) ∧
    (is_llm_api host = true → bs ≠ [] →
      get_body_content maxB (some bs) (is_llm_api host) =
        some (decodeUtf8 bs)) := by
  constructor
  · intro hl hlen
    have hne : bs.isEmpty = false := by
      cases bs with
      | nil => simp at hlen
      | cons a l => rfl
    simp [get_body_content, hl, hne, hlen]
  · intro hl hne
    have hbe : bs.isEmpty = false := by
      cases bs with
      | nil => exact absurd rfl hne
      | cons a l => rfl
    simp [get_body_content, hl, hbe]

/-- Witness for `body_truncation`: a 3-byte body with the bound set to 2 is
truncated on a non-exempt host and kept whole on a known-endpoint host. -/
theorem body_truncation_witness :
    get_body_content 2 (some [104, 101, 121]) (is_llm_api "example.com") =
      some (truncatedPlaceholder [104, 101, 121].length) ∧
    get_body_content 2 (some [104, 101, 121]) (is_llm_api "api.openai.com") =
      some (decodeUtf8 [104, 101, 121]) :=
  ⟨(body_truncation 2 "example.com" [104, 101, 121]).1 (by decide) (by decide),
   (body_truncation 2 "api.openai.com" [104, 101, 121]).2 (by decide) (by decide)⟩

/-- C9: an intercept mode other than the three recognised values — which
`set_intercept_mode` permits, storing its mode field unvalidated — makes the
mode-based pause decision false for every host, i.e. behaves as
passthrough. -/
theorem unknown_mode_passthrough (st : AddonState) (host : String) (m : String)
    (h1 : st.intercept_mode ≠ "passthrough")
    (h2 : st.intercept_mode ≠ "intercept_llm")
    (h3 : st.intercept_mode ≠ "intercept_all") :
    should_intercept st host = false ∧
    processCommand st (Command.set_intercept_mode (some m)) =
      { st with intercept_mode := m } := by
  constructor
  · simp [should_intercept, h1, h2, h3]
  · rfl

/-- Witness for `unknown_mode_passthrough` at a concrete unrecognised mode. -/
theorem unknown_mode_passthrough_witness :
    should_intercept { intercept_mode := "bogus" } "api.openai.com" = false ∧
    processCommand { intercept_mode := "bogus" }
        (Command.set_intercept_mode (some "weird")) =
      { intercept_mode := "weird" } :=
  unknown_mode_passthrough { intercept_mode := "bogus" } "api.openai.com"
    "weird" (by decide) (by decide) (by decide)

/-- C10: the known-endpoint flag is substring containment — true exactly when
some entry of the known-endpoint list occurs anywhere inside the host — and
in particular a host that is not any listed endpoint but contains one as a
substring gets the flag. -/
theorem known_endpoint_substring :
    (∀ host : String, is_llm_api host = true ↔
      ∃ h ∈ LLM_API_HOSTS, ∃ s t, host.toList = s ++ h.toList ++ t) ∧
    is_llm_api "xchatgpt.com" = true ∧
    "xchatgpt.com" ∉ LLM_API_HOSTS := by
  refine ⟨?_, by decide, by decide⟩
  intro host
  unfold is_llm_api
  rw [List.any_eq_true]
  constructor
  · rintro ⟨h, hh, hstr⟩
    exact ⟨h, hh, (strIn_iff h host).mp hstr⟩
  · rintro ⟨h, hh, hex⟩
    exact ⟨h, hh, (strIn_iff h host).mpr hex⟩

/-! ## Fixtures for witnesses and counterexamples -/

def demoResponse : Response :=
  { status_code := 200, reason := "OK", headers := [("rh", "rv")],
    content := none }

def demoFlow : Flow :=
  { id := "f1"
    request :=
      { method := "GET", url := "https://example.com/a", host := "example.com",
        port := 443, path := "/a", headers := [("h0", "v0")], content := none }
    response := some demoResponse }

def stInterceptAll : AddonState := { intercept_mode := "intercept_all" }

/-- Intercept-all state that already holds a signalled wait for `"f1"`. -/
def stDupWait : AddonState :=
  { intercept_mode := "intercept_all", pending_flows := [("f1", true)] }

/-- C1: a paused phase whose wait ends by timeout of the 300-second bound is
forwarded unmodified — no stored Modification Set is applied — and the hook
run is exactly the run in which the wait instead ends by a plain release
(`forward` / `forward_response`, i.e. release with no modification).  Holds
for the request and the response phase. -/
theorem timeout_applies_empty_modification_set (maxB : Nat) (st0 : AddonState)
    (flow : Flow) (cs : List Command) (r : Response)
    (hr : flow.response = some r)
    (hp : (should_intercept st0 flow.request.host || should_apply_rules st0) = true)
    (hmreq : dictLookup st0.flow_modifications flow.id = none)
    (hmresp : dictLookup st0.response_modifications flow.id = none)
    (htreq : eventSet
        (cs.foldl processCommand (registerRequestWait st0 flow.id)).pending_flows
        flow.id = false)
    (htresp : eventSet
        (cs.foldl processCommand
          (registerResponseWait (responsePreState st0 flow.id) flow.id)).response_pending
        flow.id = false) :
    (requestHook maxB st0 flow cs).2.2 = some flow ∧
    (requestHook maxB st0 flow cs).2.1 =
      [Msg.request (flowToDict maxB flow false),
       Msg.intercept_request (flowToDict maxB flow false)] ∧
    requestHook maxB st0 flow cs =
      requestHook maxB st0 flow (cs ++ [Command.forward flow.id]) ∧
    (responseHook maxB st0 flow cs).2.2 = flow ∧
    responseHook maxB st0 flow cs =
      responseHook maxB st0 flow (cs ++ [Command.forward_response flow.id]) := by
  obtain ⟨a1, a2, a3⟩ := requestHook_timeout_aux maxB st0 flow cs hp hmreq htreq
  obtain ⟨b1, b2⟩ := responseHook_timeout_aux maxB st0 flow cs r hr hp hmresp htresp
  exact ⟨a1, a2, a3, b1, b2⟩

/-- Witness for `timeout_applies_empty_modification_set`: intercept-all mode,
no commands arrive during the wait (timeout). -/
theorem timeout_applies_empty_modification_set_witness :
    (requestHook 5 stInterceptAll demoFlow []).2.2 = some demoFlow ∧
    (requestHook 5 stInterceptAll demoFlow []).2.1 =
      [Msg.request (flowToDict 5 demoFlow false),
       Msg.intercept_request (flowToDict 5 demoFlow false)] ∧
    requestHook 5 stInterceptAll demoFlow [] =
      requestHook 5 stInterceptAll demoFlow
        ([] ++ [Command.forward demoFlow.id]) ∧
    (responseHook 5 stInterceptAll demoFlow []).2.2 = demoFlow ∧
    responseHook 5 stInterceptAll demoFlow [] =
      responseHook 5 stInterceptAll demoFlow
        ([] ++ [Command.forward_response demoFlow.id]) :=
  timeout_applies_empty_modification_set 5 stInterceptAll demoFlow [] demoResponse
    rfl (by decide) rfl rfl (by decide) (by decide)

/-- C2 counterexample: registering a wait for a pair that already has a live
wait does not fail with DuplicateRegistration — it succeeds, silently
replacing the existing entry with a fresh unset event (here discarding a
signal already delivered), and the hook on such a state runs its normal
course with no error of any kind. -/
theorem duplicate_register_overwrites_cex :
    dictMem
      ({ pending_flows := [("f1", true)] } : AddonState).pending_flows "f1" = true ∧
    registerRequestWait { pending_flows := [("f1", true)] } "f1" =
      { pending_flows := [("f1", false)] } ∧
    (requestHook 5 stDupWait demoFlow []).2.1 =
      [Msg.request (flowToDict 5 demoFlow false),
       Msg.intercept_request (flowToDict 5 demoFlow false)] := by
  refine ⟨by decide, by decide, ?_⟩
  rfl

/-- C2 (amended): duplicate registration does not fail; the registry is a
dict keyed by flow id, so the new unset event overwrites the existing entry
and at most one entry per (id, phase) remains. -/
theorem duplicate_register_overwrites (st : AddonState) (fid : String)
    (huniq : ∀ k, countKey st.pending_flows k ≤ 1) :
    dictLookup (registerRequestWait st fid).pending_flows fid = some false ∧
    ∀ k, countKey (registerRequestWait st fid).pending_flows k ≤ 1 := by
  constructor
  · exact dictLookup_insert_self st.pending_flows fid false
  · intro k
    exact countKey_insert_le st.pending_flows fid false k (huniq k)

/-- Witness for `duplicate_register_overwrites` on a registry that already
holds a (signalled) wait for the same id. -/
theorem duplicate_register_overwrites_witness :
    dictLookup
      (registerRequestWait { pending_flows := [("f1", true)] } "f1").pending_flows
      "f1" = some false ∧
    countKey
      (registerRequestWait { pending_flows := [("f1", true)] } "f1").pending_flows
      "f1" ≤ 1 :=
  ⟨(duplicate_register_overwrites { pending_flows := [("f1", true)] } "f1"
      (fun k => by unfold countKey; cases h : (("f1" : String) == k) <;>
        simp [List.countP_cons, h])).1,
   (duplicate_register_overwrites { pending_flows := [("f1", true)] } "f1"
      (fun k => by unfold countKey; cases h : (("f1" : String) == k) <;>
        simp [List.countP_cons, h])).2 "f1"⟩

/-- C4 counterexample: a replay spec without a URL is reported with a
`replay_response` message carrying the error — the trace contains no
`replay_complete` message, contrary to the claim. -/
theorem replay_missing_url_cex :
    (handleReplayRequest {} { replay_id := some "r1" }
        (fun _ => Except.error "e") (fun _ _ _ _ => Except.error "e") []).2.1 =
      [Msg.replay_response (some "r1") none none (some "Missing URL")] ∧
    (handleReplayRequest {} { replay_id := some "r1" }
        (fun _ => Except.error "e") (fun _ _ _ _ => Except.error "e") []).2.1.countP
      Msg.isReplayComplete = 0 := by
  exact ⟨rfl, rfl⟩

/-- C4 (amended): for a replay spec whose request parameters lack a URL (or
carry an empty one), the handler performs no HTTP request, raises nothing
(it is a total function returning normally), leaves the state untouched,
and reports the failure to the operator as a single `replay_response`
message carrying the error. -/
theorem replay_missing_url_reported (st : AddonState) (data : ReplayData)
    (parseUrl : String → Except String ParsedUrl)
    (httpClient : String → String → List (String × String) → Option String →
      Except String HttpResp)
    (cs : List Command)
    (hurl : data.request_url = none ∨ data.request_url = some "") :
    handleReplayRequest st data parseUrl httpClient cs =
      (st,
       [Msg.replay_response data.replay_id data.variant_id none
          (some "Missing URL")],
       false) := by
  unfold handleReplayRequest
  rcases hurl with h | h <;> simp [h]

/-- Witness for `replay_missing_url_reported` at a concrete spec with no
URL. -/
theorem replay_missing_url_reported_witness :
    handleReplayRequest {} { replay_id := some "r1", variant_id := some "v1" }
        (fun _ => Except.error "e") (fun _ _ _ _ => Except.error "e") [] =
      ({},
       [Msg.replay_response (some "r1") (some "v1") none (some "Missing URL")],
       false) :=
  replay_missing_url_reported {} { replay_id := some "r1", variant_id := some "v1" }
    (fun _ => Except.error "e") (fun _ _ _ _ => Except.error "e") []
    (Or.inl rfl)

/-- C5: the drop command applies only to the request phase — naming a flow
that is pending only in the response phase it is ignored (no state change at
all) — and a stored drop on a paused request kills the flow right after the
pause message: nothing is forwarded and no edit notification is sent. -/
theorem drop_request_phase_only (st : AddonState) (fid : String) (maxB : Nat)
    (st0 : AddonState) (flow : Flow) (cs : List Command) (mods : Mods)
    (hresp : dictMem st.response_pending fid = true)
    (hreq : dictMem st.pending_flows fid = false)
    (hp : (should_intercept st0 flow.request.host || should_apply_rules st0) = true)
    (hm : dictLookup
        (cs.foldl processCommand (registerRequestWait st0 flow.id)).flow_modifications
        flow.id = some mods)
    (hd : mods.drop = true) :
    processCommand st (Command.drop fid) = st ∧
    (requestHook maxB st0 flow cs).2.2 = none ∧
    (requestHook maxB st0 flow cs).2.1 =
      [Msg.request (flowToDict maxB flow false),
       Msg.intercept_request (flowToDict maxB flow false)] := by
  refine ⟨?_, ?_, ?_⟩
  · simp [processCommand, hreq]
  · unfold requestHook
    simp [hp, hm, hd]
  · unfold requestHook
    simp [hp, hm, hd]

/-- Witness for `drop_request_phase_only`: a drop naming a response-only
pending flow is a no-op, and a drop stored for a paused request kills it. -/
theorem drop_request_phase_only_witness :
    processCommand { response_pending := [("f9", false)] } (Command.drop "f9") =
      { response_pending := [("f9", false)] } ∧
    (requestHook 5 stInterceptAll demoFlow [Command.drop "f1"]).2.2 = none ∧
    (requestHook 5 stInterceptAll demoFlow [Command.drop "f1"]).2.1 =
      [Msg.request (flowToDict 5 demoFlow false),
       Msg.intercept_request (flowToDict 5 demoFlow false)] :=
  drop_request_phase_only { response_pending := [("f9", false)] } "f9" 5
    stInterceptAll demoFlow [Command.drop "f1"] { drop := true }
    (by decide) (by decide) (by decide) (by decide) rfl

/-- C6: applying a Modification Set merges header edits into the existing
header mapping — keys not named in the edit keep their values — while body
and status_code edits replace the existing value wholesale, on both the
request and the response phase. -/
theorem mods_merge_and_replace (flow : Flow) (r : Response) (mods : Mods)
    (hs : List (String × String)) (b : String) (sc : Int) (k : String)
    (hr : flow.response = some r) :
    (mods.headers = some hs →
      (applyResponseMods flow mods).1.response.map Response.headers =
        some (mergeHeaders r.headers hs) ∧
      (applyRequestMods flow mods).1.request.headers =
        mergeHeaders flow.request.headers hs) ∧
    ((hs.all fun p => !(p.1 == k)) = true →
      dictLookup (mergeHeaders r.headers hs) k = dictLookup r.headers k) ∧
    (mods.body = some b →
      (applyResponseMods flow mods).1.response.map Response.content =
        some (some (encodeUtf8 b)) ∧
      (applyRequestMods flow mods).1.request.content = some (encodeUtf8 b)) ∧
    (mods.status_code = some sc →
      (applyResponseMods flow mods).1.response.map Response.status_code =
        some sc) := by
  refine ⟨?_, ?_, ?_, ?_⟩
  · intro hh
    constructor
    · unfold applyResponseMods
      rw [hr]
      cases hob : mods.body <;> cases hosc : mods.status_code <;>
        simp [hh, hob, hosc]
    · unfold applyRequestMods
      cases hob : mods.body <;> simp [hh, hob]
  · intro hk
    exact mergeHeaders_not_named r.headers hs k hk
  · intro hb
    constructor
    · unfold applyResponseMods
      rw [hr]
      cases hoh : mods.headers <;> cases hosc : mods.status_code <;>
        simp [hb, hoh, hosc]
    · unfold applyRequestMods
      cases hoh : mods.headers <;> simp [hb, hoh]
  · intro hsc
    unfold applyResponseMods
    rw [hr]
    cases hob : mods.body <;> cases hoh : mods.headers <;>
      simp [hsc, hob, hoh]

/-- Witness for `mods_merge_and_replace` with a concrete Modification Set
editing body, headers and status code at once. -/
theorem mods_merge_and_replace_witness :
    ((applyResponseMods demoFlow
        { body := some "B", headers := some [("h1", "x")], status_code := some 404 }).1.response.map
      Response.headers =
        some (mergeHeaders demoResponse.headers [("h1", "x")]) ∧
     (applyRequestMods demoFlow
        { body := some "B", headers := some [("h1", "x")], status_code := some 404 }).1.request.headers =
        mergeHeaders demoFlow.request.headers [("h1", "x")]) ∧
    dictLookup (mergeHeaders demoResponse.headers [("h1", "x")]) "rh" =
      dictLookup demoResponse.headers "rh" ∧
    ((applyResponseMods demoFlow
        { body := some "B", headers := some [("h1", "x")], status_code := some 404 }).1.response.map
      Response.content =
        some (some (encodeUtf8 "B")) ∧
     (applyRequestMods demoFlow
        { body := some "B", headers := some [("h1", "x")], status_code := some 404 }).1.request.content =
        some (encodeUtf8 "B")) ∧
    (applyResponseMods demoFlow
        { body := some "B", headers := some [("h1", "x")], status_code := some 404 }).1.response.map
      Response.status_code = some 404 :=
  ⟨(mods_merge_and_replace demoFlow demoResponse
      { body := some "B", headers := some [("h1", "x")], status_code := some 404 }
      [("h1", "x")] "B" 404 "rh" rfl).1 rfl,
   (mods_merge_and_replace demoFlow demoResponse
      { body := some "B", headers := some [("h1", "x")], status_code := some 404 }
      [("h1", "x")] "B" 404 "rh" rfl).2.1 (by decide),
   (mods_merge_and_replace demoFlow demoResponse
      { body := some "B", headers := some [("h1", "x")], status_code := some 404 }
      [("h1", "x")] "B" 404 "rh" rfl).2.2.1 rfl,
   (mods_merge_and_replace demoFlow demoResponse
      { body := some "B", headers := some [("h1", "x")], status_code := some 404 }
      [("h1", "x")] "B" 404 "rh" rfl).2.2.2 rfl⟩

/-- C7 counterexample: on the response phase the pause message precedes the
single observed (`response`) message — here the trace is exactly
[intercept_response, response] — refuting "the observed message is sent
before any pause message for that phase". -/
theorem response_observed_after_pause_cex :
    (responseHook 5 stInterceptAll demoFlow
        [Command.forward_response "f1"]).2.1.map Msg.isInterceptResponse =
      [true, false] ∧
    (responseHook 5 stInterceptAll demoFlow
        [Command.forward_response "f1"]).2.1.map Msg.isResponse =
      [false, true] := by
  exact ⟨rfl, rfl⟩

/-- C7 (amended): exactly one observed message is sent per phase; for the
request phase it is the first message, preceding any pause message, while
for the response phase the single observed message is the last message of
the phase, sent after any pause message. -/
theorem observed_message_per_phase (maxB : Nat) (st0 : AddonState) (flow : Flow)
    (cs : List Command) (r : Response) (hr : flow.response = some r) :
    ((requestHook maxB st0 flow cs).2.1.countP Msg.isRequest = 1 ∧
     (requestHook maxB st0 flow cs).2.1.head? =
       some (Msg.request (flowToDict maxB flow false)) ∧
     (requestHook maxB st0 flow cs).2.1.countP Msg.isInterceptRequest ≤ 1) ∧
    ((responseHook maxB st0 flow cs).2.1.countP Msg.isResponse = 1 ∧
     (responseHook maxB st0 flow cs).2.1.getLast?.map Msg.isResponse =
       some true ∧
     (responseHook maxB st0 flow cs).2.1.countP Msg.isInterceptResponse ≤ 1) :=
  ⟨requestHook_trace_facts maxB st0 flow cs,
   responseHook_trace_facts maxB st0 flow cs r hr⟩

/-- Witness for `observed_message_per_phase` at a concrete paused flow. -/
theorem observed_message_per_phase_witness :
    ((requestHook 5 stInterceptAll demoFlow []).2.1.countP Msg.isRequest = 1 ∧
     (requestHook 5 stInterceptAll demoFlow []).2.1.head? =
       some (Msg.request (flowToDict 5 demoFlow false)) ∧
     (requestHook 5 stInterceptAll demoFlow []).2.1.countP
       Msg.isInterceptRequest ≤ 1) ∧
    ((responseHook 5 stInterceptAll demoFlow []).2.1.countP Msg.isResponse = 1 ∧
     (responseHook 5 stInterceptAll demoFlow []).2.1.getLast?.map Msg.isResponse =
       some true ∧
     (responseHook 5 stInterceptAll demoFlow []).2.1.countP
       Msg.isInterceptResponse ≤ 1) :=
  observed_message_per_phase 5 stInterceptAll demoFlow [] demoResponse rfl

end Tollbooth
